import Mathlib

/-!
Shallow embedding of the just-mcp server (two variants: the structured-dump
server and the text-listing server) and proofs about its schema synthesis,
argument marshalling, execution-output formatting and error handling.
-/

/-- Cardinality tag of a parameter in the structured JSON dump
(the source field `kind: "singular" | "star" | "plus"`). -/
inductive Kind where
  | singular
  | star
  | plus
deriving DecidableEq, Repr

/-- Shape of the `default` field of a dumped parameter, which in the source is
typed `string | string[] | null`: `null` (no default), a literal string, or an
array-shaped value that the dump uses for an unevaluated expression.  The code
only ever tests `Array.isArray` on the array form and never reads its
contents, so the array payload is not modelled. -/
inductive JustDefault where
  | null
  | str (s : String)
  | arr
deriving DecidableEq, Repr

/-- JavaScript truthiness of a `string | string[] | null` value, as used by
the source in `param.default ? _ : _`: `null` and the empty string are falsy,
every other string is truthy, an array is truthy. -/
def JustDefault.isTruthy : JustDefault → Bool
  | JustDefault.null => false
  | JustDefault.str s => !s.isEmpty
  | JustDefault.arr => true

/-- String interpolation of the default into a description, as in the
source template strings: a string interpolates to itself, `null` to the text
"null" (never reached on the truthy branches where it is used). -/
def JustDefault.display : JustDefault → String
  | JustDefault.null => "null"
  | JustDefault.str s => s
  | JustDefault.arr => ""

/-- The `JustParameter` record of the structured-dump variant.  The source
field `export` is a reserved word in Lean and is embedded as `exportFlag`. -/
structure JustParameter where
  name : String
  kind : Kind
  default : JustDefault
  exportFlag : Bool
deriving DecidableEq, Repr

/-- The `TaskParameter` record of the text-listing variant. -/
structure TaskParameter where
  name : String
  isVarArgs : Bool
deriving DecidableEq, Repr

/-- Base type of a synthesized zod schema node: a plain string or an array of
strings. -/
inductive SchemaBase where
  | str
  | arrStr
deriving DecidableEq, Repr

/-- A synthesized zod schema node as built by `createParameterSchema`:
its base type, whether `.optional()` was applied, the `.min` bound on array
length (0 when no `.min` call is made, 1 for `.min(1)`), and the
`.describe(...)` text. -/
structure ParamSchema where
  base : SchemaBase
  optional : Bool
  minLen : Nat
  descr : String
deriving DecidableEq, Repr

/-- Embedding of `createParameterSchema` from the structured-dump variant.
Branch order follows the source: first the `Array.isArray(param.default)`
check (expression default), then `star`/`plus` handling with the JS-truthiness
test `param.default ? _ : _`, then the `singular` case with the same
truthiness test. -/
def createParameterSchema (param : JustParameter) (recipeName : String) : ParamSchema :=
  match param.default with
  | JustDefault.arr =>
    if param.kind == Kind.star || param.kind == Kind.plus then
      { base := SchemaBase.arrStr, optional := true, minLen := 0,
        descr := "Parameters for the " ++ recipeName ++
          " recipe (default value is an expression in the Justfile)" }
    else
      { base := SchemaBase.str, optional := true, minLen := 0,
        descr := "Optional parameter " ++ param.name ++ " for the " ++ recipeName ++
          " recipe (default value is an expression in the Justfile)" }
  | d =>
    if param.kind == Kind.star || param.kind == Kind.plus then
      if param.kind == Kind.plus then
        if d.isTruthy then
          { base := SchemaBase.arrStr, optional := true, minLen := 0,
            descr := "Parameters for the " ++ recipeName ++
              " recipe (default: " ++ d.display ++ ")" }
        else
          { base := SchemaBase.arrStr, optional := false, minLen := 1,
            descr := "Parameters for the " ++ recipeName ++
              " recipe (at least one required)" }
      else
        { base := SchemaBase.arrStr, optional := true, minLen := 0,
          descr := "Parameters for the " ++ recipeName ++ " recipe (not required)" }
    else
      if d.isTruthy then
        { base := SchemaBase.str, optional := true, minLen := 0,
          descr := "Optional parameter " ++ param.name ++
            " (default: " ++ d.display ++ ")" }
      else
        { base := SchemaBase.str, optional := false, minLen := 0,
          descr := "Required parameter " ++ param.name }

/-- A caller-supplied field value, as the marshaller receives it: a string, an
array of strings (the only shapes the zod schemas admit), or any other
JavaScript value (`other`), which the marshaller drops. -/
inductive Value where
  | str (s : String)
  | arr (xs : List String)
  | other
deriving DecidableEq, Repr

/-- The `Array.isArray(value)` test. -/
def Value.isArr : Value → Bool
  | Value.arr _ => true
  | _ => false

/-- Elements of an array value (`args.push(...value)`); empty otherwise. -/
def Value.elems : Value → List String
  | Value.arr xs => xs
  | _ => []

/-- Validation of a synthesized schema node against a caller-supplied field,
following zod semantics for the combinators the source uses: a missing field
is accepted only by an `.optional()` schema; a string is accepted by a string
schema; an array of strings is accepted by an array schema whose `.min` bound
its length meets; anything else is rejected. -/
def validates (s : ParamSchema) (v : Option Value) : Bool :=
  match v with
  | none => s.optional
  | some (Value.str _) => s.base == SchemaBase.str
  | some (Value.arr xs) => s.base == SchemaBase.arrStr && decide (s.minLen ≤ xs.length)
  | some Value.other => false

/-- Contribution of one `[name, value]` entry of the caller-supplied map in
the structured-dump variant's `processParameters`: unknown names are skipped
(`if (!param) continue`), an array value of a `star`/`plus` parameter spreads
its elements, a string value pushes itself, anything else is dropped. -/
def entryArgs (parameters : List JustParameter) (name : String) (value : Value) : List String :=
  match parameters.find? (fun p => p.name == name) with
  | none => []
  | some param =>
    if (param.kind == Kind.star || param.kind == Kind.plus) && value.isArr then
      value.elems
    else
      match value with
      | Value.str s => [s]
      | _ => []

/-- Embedding of `processParameters` from the structured-dump variant: iterate
the entries of the caller-supplied map in its own key order, appending each
entry's contribution. -/
def processParameters : List (String × Value) → List JustParameter → List String
  | [], _ => []
  | (name, value) :: rest, parameters =>
    entryArgs parameters name value ++ processParameters rest parameters

/-- Contribution of one entry in the text-listing variant's
`processParameters`.  Note the difference from the structured variant: there
is no `continue` for unknown names; the source tests `param?.isVarArgs &&
Array.isArray(value)` (falsy when the lookup fails) and otherwise pushes any
string value — including a string under an unknown name. -/
def entryArgsTask (parameters : List TaskParameter) (name : String) (value : Value) : List String :=
  let param := parameters.find? (fun p => p.name == name)
  if (param.map (fun p => p.isVarArgs)).getD false && value.isArr then
    value.elems
  else
    match value with
    | Value.str s => [s]
    | _ => []

/-- Embedding of `processParameters` from the text-listing variant. -/
def processParametersTasks : List (String × Value) → List TaskParameter → List String
  | [], _ => []
  | (name, value) :: rest, parameters =>
    entryArgsTask parameters name value ++ processParametersTasks rest parameters

/-- Flattening of a value map in its own key order: a string value contributes
itself, an array value contributes its elements in order. -/
def Value.flat : Value → List String
  | Value.str s => [s]
  | Value.arr xs => xs
  | Value.other => []

/-- Flattened values of a caller-supplied map in map key order. -/
def flattenValues : List (String × Value) → List String
  | [] => []
  | nv :: rest => nv.2.flat ++ flattenValues rest

/-- Whether a value map is well-shaped for a declared parameter list of the
structured-dump variant: every key resolves (by the marshaller's own `find?`
lookup) to a parameter, and the value has the schema's shape for that
parameter's cardinality. -/
def shapeOK (k : Kind) (v : Value) : Bool :=
  match k, v with
  | Kind.singular, Value.str _ => true
  | Kind.star, Value.arr _ => true
  | Kind.plus, Value.arr _ => true
  | _, _ => false

/-- All entries of the map are well-shaped for the declared parameters
(structured-dump variant). -/
def wellShaped : List (String × Value) → List JustParameter → Bool
  | [], _ => true
  | nv :: rest, ps =>
    (match ps.find? (fun p => p.name == nv.1) with
     | some p => shapeOK p.kind nv.2
     | none => false) && wellShaped rest ps

/-- Shape agreement for the text-listing variant: a string for a plain
parameter, an array of strings for a varargs parameter. -/
def shapeOKTask (isVar : Bool) (v : Value) : Bool :=
  match isVar, v with
  | false, Value.str _ => true
  | true, Value.arr _ => true
  | _, _ => false

/-- All entries of the map are well-shaped for the declared parameters
(text-listing variant). -/
def wellShapedTasks : List (String × Value) → List TaskParameter → Bool
  | [], _ => true
  | nv :: rest, ts =>
    (match ts.find? (fun p => p.name == nv.1) with
     | some t => shapeOKTask t.isVarArgs nv.2
     | none => false) && wellShapedTasks rest ts

/-- One chunk of child-process output, in arrival order across the two
concurrently drained streams of the executor. -/
inductive ExecEvent where
  | out (s : String)
  | err (s : String)
deriving DecidableEq, Repr

/-- Text of a chunk, as decoded and appended to the shared output buffer. -/
def chunkText : ExecEvent → String
  | ExecEvent.out s => s
  | ExecEvent.err s => s

/-- The shared output buffer after both stream readers have drained their
chunks: the concatenation of all chunk texts in arrival order
(`output += decoder.decode(chunk)`). -/
def collectOutput : List ExecEvent → String
  | [] => ""
  | e :: rest => chunkText e ++ collectOutput rest

/-- The result string of `executeRecipe` / `executeJustTask` for a
successfully spawned child: the combined output buffer followed by the
appended line (`output += "\nProcess exited with code " + code`). -/
def executeRecipeResult (events : List ExecEvent) (code : Int) : String :=
  collectOutput events ++ ("\nProcess exited with code " ++ toString code)

/-- Observable behaviour of one spawn attempt: either the spawn itself throws
(with some failure message) or the child runs, producing an interleaved chunk
trace and an exit code. -/
structure SpawnOutcome where
  spawnError : Option String
  events : List ExecEvent
  code : Int
deriving DecidableEq, Repr

/-- Behaviour of `executeRecipe` as a function of the spawn outcome: a spawn failure
propagates as an exception (`Except.error`), otherwise the combined output
with the trailing exit-code line is returned. -/
def executeRecipeModel (o : SpawnOutcome) : Except String String :=
  match o.spawnError with
  | some msg => Except.error msg
  | none => Except.ok (executeRecipeResult o.events o.code)

/-- The tool's `execute` closure (identical in both server variants): the
result of `executeRecipe` is returned as-is; an exception is re-thrown as
`Failed to execute <recipeName>: <message>`. -/
def executeToolResult (recipeName : String) (o : SpawnOutcome) : Except String String :=
  match executeRecipeModel o with
  | Except.ok output => Except.ok output
  | Except.error msg => Except.error ("Failed to execute " ++ recipeName ++ ": " ++ msg)

/-- Argument vector handed to `Deno.Command("bash", ...)` by the
structured-dump variant's `executeRecipe`: login-shell flag, `-c`, the command
string interpolating only the recipe name, the `--` separator (bash's `$0`),
then the server process's own arguments (`Deno.args`) and the marshalled
caller arguments as positional parameters. -/
def executeRecipeBashArgs (recipeName : String) (denoArgs args : List String) : List String :=
  ["-l", "-c", "just " ++ recipeName ++ " \"$@\"", "--"] ++ denoArgs ++ args

/-- Argument vector handed to `Deno.Command("bash", ...)` by the text-listing
variant's `executeJustTask`: as above but without `Deno.args`. -/
def executeJustTaskBashArgs (taskName : String) (args : List String) : List String :=
  ["-l", "-c", "just " ++ taskName ++ " \"$@\"", "--"] ++ args

/-- Argument vector of the startup dump invocation of the structured-dump
variant (`Deno.Command("just", { args: [...Deno.args, "--dump",
"--dump-format", "json"] })`). -/
def getJustRecipesDumpArgs (denoArgs : List String) : List String :=
  denoArgs ++ ["--dump", "--dump-format", "json"]

/-- Tool description in the structured-dump variant
(`recipe.doc || "Run the <name> recipe"`): the documentation string when it is
JS-truthy (non-null and non-empty), else the synthesized fallback. -/
def recipeToolDescription (doc : Option String) (recipeName : String) : String :=
  match doc with
  | some d => if d.isEmpty then "Run the " ++ recipeName ++ " recipe" else d
  | none => "Run the " ++ recipeName ++ " recipe"

/-- JavaScript `String.prototype.trim`, as an executable function on the
character list: strip whitespace from both ends. -/
def jsTrim (s : String) : String :=
  ⟨((s.data.dropWhile Char.isWhitespace).reverse.dropWhile Char.isWhitespace).reverse⟩

/-- Tool description in the text-listing variant
(`comment.trim() || "Run the <name> task"`): the trimmed doc comment when
non-empty, else a fallback that says "task", not "recipe". -/
def taskToolDescription (comment : String) (taskName : String) : String :=
  if (jsTrim comment).isEmpty then "Run the " ++ taskName ++ " task" else jsTrim comment

/-- Claim C1: a parameter whose default is an unresolved expression (an
array-shaped, non-literal default in the dump) always gets an optional, never
required, schema node — a plain string schema for `singular` cardinality and a
sequence-of-strings schema for `star`/`plus` — and its description states that
the default is an expression in the Justfile. -/
theorem c1_unresolved_expression_schema (name recipeName : String) (k : Kind) (e : Bool) :
    (createParameterSchema ⟨name, k, JustDefault.arr, e⟩ recipeName).optional = true ∧
    (createParameterSchema ⟨name, k, JustDefault.arr, e⟩ recipeName).base =
      (if k == Kind.singular then SchemaBase.str else SchemaBase.arrStr) ∧
    ∃ pre, (createParameterSchema ⟨name, k, JustDefault.arr, e⟩ recipeName).descr =
      pre ++ " recipe (default value is an expression in the Justfile)" := by
  cases k with
  | singular =>
    exact ⟨rfl, rfl, "Optional parameter " ++ name ++ " for the " ++ recipeName, rfl⟩
  | star => exact ⟨rfl, rfl, "Parameters for the " ++ recipeName, rfl⟩
  | plus => exact ⟨rfl, rfl, "Parameters for the " ++ recipeName, rfl⟩

/-- Counterexample to claim C2 as stated: the parameter `ARGS` of kind `plus`
carries the literal default `""`, yet the synthesized schema is not optional
(it is the required min-length-one sequence schema), because the source tests
the default with JS truthiness and the empty string is falsy. -/
theorem c2_counterexample :
    (createParameterSchema ⟨"ARGS", Kind.plus, JustDefault.str "", false⟩
        "test_minimum_variable").optional = false ∧
    (createParameterSchema ⟨"ARGS", Kind.plus, JustDefault.str "", false⟩
        "test_minimum_variable").minLen = 1 := by
  exact ⟨rfl, rfl⟩

/-- Claim C2 (amended): a `plus` parameter with no default gets a required
sequence-of-strings schema with minimum length one, which rejects a missing
field and an empty sequence and accepts a singleton sequence, and the
marshaller turns `ARGS ↦ ["x"]` into `["x"]`; a `plus` parameter with a
non-empty literal default instead gets an optional sequence-of-strings schema
(an empty-string literal default is falsy in JS and behaves like no
default). -/
theorem c2_plus_schema (recipeName name d : String) (e : Bool) :
    createParameterSchema ⟨name, Kind.plus, JustDefault.null, e⟩ recipeName =
      ⟨SchemaBase.arrStr, false, 1,
        "Parameters for the " ++ recipeName ++ " recipe (at least one required)"⟩ ∧
    validates (createParameterSchema ⟨name, Kind.plus, JustDefault.null, e⟩ recipeName)
      none = false ∧
    validates (createParameterSchema ⟨name, Kind.plus, JustDefault.null, e⟩ recipeName)
      (some (Value.arr [])) = false ∧
    validates (createParameterSchema ⟨name, Kind.plus, JustDefault.null, e⟩ recipeName)
      (some (Value.arr ["x"])) = true ∧
    processParameters [(name, Value.arr ["x"])] [⟨name, Kind.plus, JustDefault.null, e⟩] = ["x"] ∧
    (createParameterSchema ⟨name, Kind.plus, JustDefault.str d, e⟩ recipeName).optional
      = !d.isEmpty ∧
    (createParameterSchema ⟨name, Kind.plus, JustDefault.str d, e⟩ recipeName).base
      = SchemaBase.arrStr := by
  refine ⟨rfl, rfl, rfl, rfl, ?_, ?_, ?_⟩
  · simp [processParameters, entryArgs, List.find?, Value.isArr, Value.elems]
  · cases hd : d.isEmpty <;>
      simp [createParameterSchema, JustDefault.isTruthy, hd]
  · cases hd : d.isEmpty <;>
      simp [createParameterSchema, JustDefault.isTruthy, hd]

/-- Counterexample to claim C3 as stated: the `singular` parameter `target`
carries the literal default `""` (explicitly included by the claim), yet the
synthesized schema is the required string schema, not an optional one, because
the empty string is falsy under the source's JS truthiness test. -/
theorem c3_counterexample :
    (createParameterSchema ⟨"target", Kind.singular, JustDefault.str "", false⟩
        "deploy").optional = false ∧
    (createParameterSchema ⟨"target", Kind.singular, JustDefault.str "", false⟩
        "deploy").descr = "Required parameter target" := by
  exact ⟨rfl, rfl⟩

/-- Claim C3 (amended): a `singular` parameter gets an optional string schema
when a non-empty literal default exists and a required string schema otherwise
(no default, or an empty-string default, which is falsy in JS); an empty
caller map marshals to the empty argument list and `target ↦ "production"`
marshals to `["production"]`. -/
theorem c3_single_schema (recipeName name d : String) (e : Bool) :
    (createParameterSchema ⟨name, Kind.singular, JustDefault.str d, e⟩ recipeName).optional
      = !d.isEmpty ∧
    (createParameterSchema ⟨name, Kind.singular, JustDefault.str d, e⟩ recipeName).base
      = SchemaBase.str ∧
    createParameterSchema ⟨name, Kind.singular, JustDefault.null, e⟩ recipeName =
      ⟨SchemaBase.str, false, 0, "Required parameter " ++ name⟩ ∧
    validates (createParameterSchema ⟨name, Kind.singular, JustDefault.str "staging", e⟩
        recipeName) none = true ∧
    processParameters [] [⟨name, Kind.singular, JustDefault.str d, e⟩] = [] ∧
    processParameters [(name, Value.str "production")]
      [⟨name, Kind.singular, JustDefault.str d, e⟩] = ["production"] := by
  refine ⟨?_, ?_, rfl, rfl, rfl, ?_⟩
  · cases hd : d.isEmpty <;>
      simp [createParameterSchema, JustDefault.isTruthy, hd]
  · cases hd : d.isEmpty <;>
      simp [createParameterSchema, JustDefault.isTruthy, hd]
  · simp [processParameters, entryArgs, List.find?, Value.isArr, Value.elems]

/-- When the marshaller's lookup resolves a map key to a parameter and the
value has the schema shape for that parameter's cardinality, the entry's
contribution is exactly the value's flattening. -/
theorem entryArgs_shaped (ps : List JustParameter) (p : JustParameter) (name : String)
    (v : Value) (hf : ps.find? (fun q => q.name == name) = some p)
    (hs : shapeOK p.kind v = true) :
    entryArgs ps name v = v.flat := by
  unfold entryArgs
  rw [hf]
  cases hk : p.kind <;> cases v <;>
    simp [shapeOK, hk] at hs ⊢ <;>
    simp [Value.isArr, Value.elems, Value.flat]

/-- Text-listing variant of `entryArgs_shaped`. -/
theorem entryArgsTask_shaped (ts : List TaskParameter) (t : TaskParameter) (name : String)
    (v : Value) (hf : ts.find? (fun q => q.name == name) = some t)
    (hs : shapeOKTask t.isVarArgs v = true) :
    entryArgsTask ts name v = v.flat := by
  simp only [entryArgsTask, hf]
  cases hb : t.isVarArgs <;> cases v <;>
    simp [shapeOKTask, hb] at hs ⊢ <;>
    simp [Value.isArr, Value.elems, Value.flat]

/-- Claim C4: for every caller-supplied value map whose keys all resolve to
declared parameters and whose values match the schema shapes (a string for a
`singular` parameter, a sequence of strings for a `star`/`plus` or varargs
parameter), the marshaller of either server variant returns exactly the
flattened values in the value map's own key order: each string contributes one
argument and each sequence contributes all its elements in order. -/
theorem c4_roundtrip_marshalling (params : List (String × Value))
    (ps : List JustParameter) (ts : List TaskParameter)
    (h1 : wellShaped params ps = true) (h2 : wellShapedTasks params ts = true) :
    processParameters params ps = flattenValues params ∧
    processParametersTasks params ts = flattenValues params := by
  revert h1 h2
  induction params with
  | nil => intro h1 h2; exact ⟨rfl, rfl⟩
  | cons nv rest ih =>
    obtain ⟨n, v⟩ := nv
    intro h1 h2
    rw [wellShaped, Bool.and_eq_true] at h1
    rw [wellShapedTasks, Bool.and_eq_true] at h2
    obtain ⟨ha, h1r⟩ := h1
    obtain ⟨hb, h2r⟩ := h2
    obtain ⟨r1, r2⟩ := ih h1r h2r
    constructor
    · cases hf : ps.find? (fun p => p.name == n) with
      | none => rw [hf] at ha; cases ha
      | some p =>
        rw [hf] at ha
        simp only [processParameters, flattenValues]
        rw [entryArgs_shaped ps p n v hf ha, r1]
    · cases hf : ts.find? (fun p => p.name == n) with
      | none => rw [hf] at hb; cases hb
      | some t =>
        rw [hf] at hb
        simp only [processParametersTasks, flattenValues]
        rw [entryArgsTask_shaped ts t n v hf hb, r2]

/-- Witness for C4: a concrete well-shaped map with one `singular` string and
one `plus` sequence marshals to the flattened values in map key order in both
variants. -/
theorem c4_roundtrip_marshalling_witness :
    wellShaped [("target", Value.str "x"), ("ARGS", Value.arr ["a", "b"])]
      [⟨"target", Kind.singular, JustDefault.null, false⟩,
       ⟨"ARGS", Kind.plus, JustDefault.null, false⟩] = true ∧
    wellShapedTasks [("target", Value.str "x"), ("ARGS", Value.arr ["a", "b"])]
      [⟨"target", false⟩, ⟨"ARGS", true⟩] = true ∧
    (processParameters [("target", Value.str "x"), ("ARGS", Value.arr ["a", "b"])]
        [⟨"target", Kind.singular, JustDefault.null, false⟩,
         ⟨"ARGS", Kind.plus, JustDefault.null, false⟩]
        = flattenValues [("target", Value.str "x"), ("ARGS", Value.arr ["a", "b"])] ∧
      processParametersTasks [("target", Value.str "x"), ("ARGS", Value.arr ["a", "b"])]
        [⟨"target", false⟩, ⟨"ARGS", true⟩]
        = flattenValues [("target", Value.str "x"), ("ARGS", Value.arr ["a", "b"])]) :=
  ⟨by decide, by decide,
   c4_roundtrip_marshalling _ _ _ (by decide) (by decide)⟩

/-- Counterexample to claim C5 as stated: in the text-listing variant,
marshalling `bogus ↦ "x"` against a task with no parameter named `bogus`
yields `["x"]`, not the empty argument sequence — the unknown key's string
value is pushed because that variant has no skip for unresolved lookups. -/
theorem c5_counterexample :
    processParametersTasks [("bogus", Value.str "x")] [] = ["x"] ∧
    (["x"] : List String) ≠ [] := by
  exact ⟨rfl, by decide⟩

/-- Claim C5 (amended): in the structured-dump variant every unknown key is
silently dropped with no error (a map all of whose keys are undeclared
marshals to the empty argument sequence); in the text-listing variant an
unknown key is dropped only when its value is a sequence — an unknown key
with a string value contributes that string as an argument. -/
theorem c5_unknown_keys_amended (ps : List JustParameter) (ts : List TaskParameter)
    (params : List (String × Value)) (name v : String) (xs : List String)
    (hps : params.all (fun nv => (ps.find? (fun p => p.name == nv.1)).isNone) = true)
    (hts : ts.find? (fun p => p.name == name) = none) :
    processParameters params ps = [] ∧
    processParametersTasks [(name, Value.str v)] ts = [v] ∧
    processParametersTasks [(name, Value.arr xs)] ts = [] := by
  refine ⟨?_, ?_, ?_⟩
  · revert hps
    induction params with
    | nil => intro _; rfl
    | cons nv rest ih =>
      intro hps
      rw [List.all_cons, Bool.and_eq_true] at hps
      obtain ⟨hhead, hrest⟩ := hps
      obtain ⟨n, v0⟩ := nv
      simp only [processParameters]
      rw [ih hrest]
      cases hf : ps.find? (fun p => p.name == n) with
      | none => simp [entryArgs, hf]
      | some p => rw [hf] at hhead; simp [Option.isNone] at hhead
  · simp [processParametersTasks, entryArgsTask, hts]
  · simp [processParametersTasks, entryArgsTask, hts, Value.isArr]

/-- Witness for C5 (amended): concrete instances of both behaviours. -/
theorem c5_unknown_keys_amended_witness :
    [("bogus", Value.str "x")].all
      (fun nv => (([⟨"target", Kind.singular, JustDefault.null, false⟩] :
        List JustParameter).find? (fun p => p.name == nv.1)).isNone) = true ∧
    ([⟨"target", false⟩] : List TaskParameter).find?
      (fun p => p.name == "bogus") = none ∧
    (processParameters [("bogus", Value.str "x")]
        [⟨"target", Kind.singular, JustDefault.null, false⟩] = [] ∧
      processParametersTasks [("bogus", Value.str "x")] [⟨"target", false⟩] = ["x"] ∧
      processParametersTasks [("bogus", Value.arr ["y"])] [⟨"target", false⟩] = []) :=
  ⟨by decide, by decide,
   c5_unknown_keys_amended _ _ _ "bogus" "x" ["y"] (by decide) (by decide)⟩

/-- Claim C6: for every successfully spawned execution, the result string is
the interleaved stdout/stderr chunks concatenated in arrival order (no
separator inserted between chunks) followed by the line
`Process exited with code <N>`; in particular a recipe exiting 0 with stdout
`"ok\n"` yields exactly `"ok\n\nProcess exited with code 0"`. -/
theorem c6_exit_line :
    (∀ (events : List ExecEvent) (code : Int),
      executeRecipeResult events code =
        collectOutput events ++ ("\nProcess exited with code " ++ toString code)) ∧
    (∀ (a b : String) (code : Int),
      executeRecipeResult [ExecEvent.out a, ExecEvent.err b] code =
        a ++ (b ++ ("\nProcess exited with code " ++ toString code))) ∧
    executeRecipeResult [ExecEvent.out "ok\n"] 0 = "ok\n\nProcess exited with code 0" := by
  refine ⟨fun events code => rfl, fun a b code => ?_, rfl⟩
  simp [executeRecipeResult, collectOutput, chunkText, String.append_empty,
    String.append_assoc]

/-- Claim C7: the tool call fails exactly when the spawn itself fails, in
which case the error message is the underlying failure message prefixed with
the recipe name and no partial output is carried; a successful spawn — with
any exit code, zero or not — always yields an ordinary result string
containing the exit-code line. -/
theorem c7_error_iff_spawn_failure (recipeName : String) (o : SpawnOutcome) :
    (∀ msg, o.spawnError = some msg →
      executeToolResult recipeName o =
        Except.error ("Failed to execute " ++ recipeName ++ ": " ++ msg)) ∧
    (o.spawnError = none →
      executeToolResult recipeName o =
        Except.ok (executeRecipeResult o.events o.code)) := by
  constructor
  · intro msg h
    simp [executeToolResult, executeRecipeModel, h]
  · intro h
    simp [executeToolResult, executeRecipeModel, h]

/-- Witness for C7: a failed spawn surfaces as the prefixed error; a spawn
that succeeds and exits with the non-zero code 2 is not an error. -/
theorem c7_error_iff_spawn_failure_witness :
    executeToolResult "deploy" ⟨some "spawn failed", [], 0⟩ =
      Except.error "Failed to execute deploy: spawn failed" ∧
    executeToolResult "deploy" ⟨none, [ExecEvent.out "boom\n"], 2⟩ =
      Except.ok (executeRecipeResult [ExecEvent.out "boom\n"] 2) :=
  ⟨(c7_error_iff_spawn_failure "deploy" ⟨some "spawn failed", [], 0⟩).1 "spawn failed" rfl,
   (c7_error_iff_spawn_failure "deploy" ⟨none, [ExecEvent.out "boom\n"], 2⟩).2 rfl⟩

/-- Claim C8: the command string handed to the login shell (third element of
the bash argument vector) is always `just <name> "$@"`, depending only on the
recipe name: two invocations of the same recipe with different marshalled
argument lists pass identical command strings, and the caller-supplied values
appear only after the `--` separator — in both server variants. -/
theorem c8_command_string_fixed (n : String) (d a1 a2 : List String) :
    (executeRecipeBashArgs n d a1)[2]? = (executeRecipeBashArgs n d a2)[2]? ∧
    (executeRecipeBashArgs n d a1)[2]? = some ("just " ++ n ++ " \"$@\"") ∧
    (executeRecipeBashArgs n d a1).take 4 = ["-l", "-c", "just " ++ n ++ " \"$@\"", "--"] ∧
    (executeRecipeBashArgs n d a1).drop 4 = d ++ a1 ∧
    (executeJustTaskBashArgs n a1)[2]? = some ("just " ++ n ++ " \"$@\"") ∧
    (executeJustTaskBashArgs n a1).drop 4 = a1 := by
  exact ⟨rfl, rfl, rfl, rfl, rfl, rfl⟩

/-- Counterexample to claim C9 as stated: in the text-listing variant a task
`build` with no doc comment gets the description `Run the build task`, not the
`Run the build recipe` the claim prescribes for both variants; moreover in the
structured-dump variant a present-but-empty documentation string also falls
back (JS truthiness), rather than being used as the description. -/
theorem c9_counterexample :
    taskToolDescription "" "build" = "Run the build task" ∧
    taskToolDescription "" "build" ≠ "Run the build recipe" ∧
    recipeToolDescription (some "") "deploy" = "Run the deploy recipe" := by
  exact ⟨rfl, by decide, rfl⟩

/-- Claim C9 (amended): the registered description equals the recipe's
documentation when it is present and non-empty; otherwise it is a synthesized
fallback, which reads `Run the <name> recipe` in the structured-dump variant
and `Run the <name> task` in the text-listing variant (whose documentation is
the trimmed doc comment). -/
theorem c9_description_amended (recipeName taskName doc comment : String)
    (hdoc : doc.isEmpty = false) (hc : (jsTrim comment).isEmpty = false) :
    recipeToolDescription (some doc) recipeName = doc ∧
    recipeToolDescription none recipeName = "Run the " ++ recipeName ++ " recipe" ∧
    recipeToolDescription (some "") recipeName = "Run the " ++ recipeName ++ " recipe" ∧
    taskToolDescription comment taskName = jsTrim comment ∧
    taskToolDescription "" taskName = "Run the " ++ taskName ++ " task" := by
  refine ⟨?_, rfl, rfl, ?_, rfl⟩
  · simp [recipeToolDescription, hdoc]
  · simp [taskToolDescription, hc]

/-- Witness for C9 (amended): concrete descriptions in both variants. -/
theorem c9_description_amended_witness :
    ("Deploy the app".isEmpty = false) ∧ ((jsTrim " docs ").isEmpty = false) ∧
    (recipeToolDescription (some "Deploy the app") "deploy" = "Deploy the app" ∧
      recipeToolDescription none "deploy" = "Run the deploy recipe" ∧
      recipeToolDescription (some "") "deploy" = "Run the deploy recipe" ∧
      taskToolDescription " docs " "docs" = jsTrim " docs " ∧
      taskToolDescription "" "docs" = "Run the docs task") :=
  ⟨by decide, by decide,
   c9_description_amended "deploy" "docs" "Deploy the app" " docs " (by decide) (by decide)⟩

/-- Claim C10: in the structured-dump variant the positional parameters handed
to the login shell are the server process's own command-line arguments
followed by the marshalled caller arguments, and the same process arguments
are likewise prepended to the startup dump invocation of the runner. -/
theorem c10_deno_args_prepended (n : String) (denoArgs args : List String) :
    (executeRecipeBashArgs n denoArgs args).drop 4 = denoArgs ++ args ∧
    getJustRecipesDumpArgs denoArgs = denoArgs ++ ["--dump", "--dump-format", "json"] ∧
    (getJustRecipesDumpArgs denoArgs).take denoArgs.length = denoArgs := by
  exact ⟨rfl, rfl, List.take_left denoArgs ["--dump", "--dump-format", "json"]⟩
